import Mathlib

/-!
Verification of the pytline transmission-line parameter engine
(src/FINAL RELEASE/pytline: core.py, constants.py, calculator.py).

Geometry primitives are embedded over the exact reals; the floating-point
functions of the source (math on Python/numpy floats) are modelled by the
corresponding exact real operations, and the numpy non-finite results
(inf/nan from log of a non-positive argument or division by zero) are
tracked explicitly by the `NpVal` type where they matter.
-/

open Classical

noncomputable section

-- core.py: geometry primitives ------------------------------------------

/-- A conductor coordinate (x, y); core.py passes 2-tuples of floats. -/
abbrev Point : Type := ℝ × ℝ

/-- core.distance: Euclidean norm of the difference of the two points,
`np.linalg.norm(np.array(p1) - np.array(p2))`. -/
def distance (p1 p2 : Point) : ℝ :=
  Real.sqrt ((p1.1 - p2.1) ^ 2 + (p1.2 - p2.2) ^ 2)

/-- core.geometric_mean: `np.prod(values) ** (1 / len(values))`,
returning 1.0 on the empty list. -/
def geometric_mean (values : List ℝ) : ℝ :=
  if values.isEmpty then 1
  else values.prod ^ ((1 : ℝ) / (values.length : ℝ))

/-- `itertools.combinations(l, 2)` in iteration order. -/
def pairs {α : Type*} : List α → List (α × α)
  | [] => []
  | x :: xs => (xs.map fun y => (x, y)) ++ pairs xs

/-- `itertools.product(l1, l2)` in iteration order. -/
def cartProd {α β : Type*} (l1 : List α) (l2 : List β) : List (α × β) :=
  l1.flatMap fun a => l2.map fun b => (a, b)

/-- core.compute_gmr: GMR of a bundled conductor.  n = 0 returns 1.0,
n = 1 returns r_self, and n ≥ 2 takes the n²-th root of
`r_self^n * (prod of combination distances)^2`, exactly as the code does. -/
def compute_gmr (bundle_points : List Point) (r_self : ℝ) : ℝ :=
  let n := bundle_points.length
  if n = 0 then 1
  else if n = 1 then r_self
  else
    let distances := (pairs bundle_points).map fun q => distance q.1 q.2
    let num_terms := n ^ 2
    let product_of_distances := if distances.isEmpty then 1 else distances.prod
    let all_terms_product := r_self ^ n * product_of_distances ^ 2
    all_terms_product ^ ((1 : ℝ) / (num_terms : ℝ))

/-- core.compute_gmd: geometric mean of all cross-bundle distances;
1.0 if either bundle is empty (`if not bundle1 or not bundle2`). -/
def compute_gmd (bundle1 bundle2 : List Point) : ℝ :=
  if bundle1.isEmpty || bundle2.isEmpty then 1
  else geometric_mean ((cartProd bundle1 bundle2).map fun q => distance q.1 q.2)

end

-- Helper lemmas about the list combinatorics used by core.py -------------

theorem list_map_prod_fin {α : Type*} (g : α → ℝ) (l : List α) :
    (l.map g).prod = ∏ i : Fin l.length, g (l.get i) := by
  rw [← List.ofFn_get_eq_map, List.prod_ofFn]

theorem pairs_length {α : Type*} : ∀ l : List α,
    (pairs l).length = l.length.choose 2
  | [] => by simp [pairs]
  | x :: xs => by
      have ih := pairs_length xs
      simp only [pairs, List.length_append, List.length_map, ih,
        List.length_cons]
      rw [Nat.choose_succ_succ, Nat.choose_one_right, Nat.add_comm]

theorem get_cons_fin_succ {α : Type*} (a : α) (l : List α) (i : Fin l.length) :
    (a :: l).get i.succ = l.get i := rfl

theorem pairs_map_prod {α : Type*} (f : α → α → ℝ) :
    ∀ l : List α,
      ((pairs l).map fun q => f q.1 q.2).prod =
        ∏ p ∈ Finset.univ.filter
            (fun p : Fin l.length × Fin l.length => p.1 < p.2),
          f (l.get p.1) (l.get p.2)
  | [] => by simp [pairs]
  | x :: xs => by
      have ih := pairs_map_prod f xs
      rw [pairs, List.map_append, List.prod_append, ih, List.map_map]
      rw [Finset.prod_filter, Finset.prod_filter,
        Fintype.prod_prod_type, Fintype.prod_prod_type]
      simp only [List.length_cons, Fin.prod_univ_succ, lt_irrefl, if_false,
        Fin.succ_pos, if_true, Fin.not_lt_zero, Fin.succ_lt_succ_iff,
        get_cons_fin_succ, List.get_cons_zero, Function.comp_def, one_mul]
      rw [list_map_prod_fin (fun y => f x y) xs]

theorem cartProd_map_prod {α β : Type*} (f : α → β → ℝ) :
    ∀ l1 : List α, ∀ l2 : List β,
      ((cartProd l1 l2).map fun q => f q.1 q.2).prod =
        (l1.map fun a => (l2.map fun b => f a b).prod).prod
  | [], l2 => by simp [cartProd]
  | x :: xs, l2 => by
      have ih := cartProd_map_prod f xs l2
      simp only [cartProd, List.flatMap_cons, List.map_append,
        List.prod_append, List.map_map, Function.comp_def, List.map_cons,
        List.prod_cons] at ih ⊢
      rw [ih]

theorem cartProd_length {α β : Type*} : ∀ (l1 : List α) (l2 : List β),
    (cartProd l1 l2).length = l1.length * l2.length
  | [], l2 => by simp [cartProd]
  | x :: xs, l2 => by
      have ih := cartProd_length xs l2
      simp only [cartProd, List.flatMap_cons, List.length_append,
        List.length_map, List.length_cons] at ih ⊢
      rw [ih]; ring

theorem prod_swap_lists {α β : Type*} (g : α → β → ℝ) :
    ∀ (l1 : List α) (l2 : List β),
      (l1.map fun a => (l2.map fun b => g a b).prod).prod =
        (l2.map fun b => (l1.map fun a => g a b).prod).prod
  | [], l2 => by simp
  | x :: xs, l2 => by
      have ih := prod_swap_lists g xs l2
      simp only [List.map_cons, List.prod_cons, ih]
      rw [← List.prod_map_mul]

theorem distance_comm (p q : Point) : distance p q = distance q p := by
  unfold distance
  have h1 : (p.1 - q.1) ^ 2 = (q.1 - p.1) ^ 2 := by ring
  have h2 : (p.2 - q.2) ^ 2 = (q.2 - p.2) ^ 2 := by ring
  rw [h1, h2]

theorem geometric_mean_congr {l1 l2 : List ℝ}
    (hlen : l1.length = l2.length) (hprod : l1.prod = l2.prod) :
    geometric_mean l1 = geometric_mean l2 := by
  unfold geometric_mean
  have h2 : l1.isEmpty = l2.isEmpty := by
    rcases l1 with _ | ⟨a, l⟩ <;> rcases l2 with _ | ⟨b, m⟩ <;> simp_all
  rw [h2, hlen, hprod]

-- Scaling helpers ---------------------------------------------------------

/-- Scale every coordinate of every point of a bundle by k. -/
noncomputable def scalePts (k : ℝ) (l : List Point) : List Point :=
  l.map fun p => (k * p.1, k * p.2)

theorem distance_nonneg (p q : Point) : 0 ≤ distance p q :=
  Real.sqrt_nonneg _

theorem distance_scale (k : ℝ) (hk : 0 ≤ k) (p q : Point) :
    distance (k * p.1, k * p.2) (k * q.1, k * q.2) = k * distance p q := by
  unfold distance
  have h : (k * p.1 - k * q.1) ^ 2 + (k * p.2 - k * q.2) ^ 2 =
      k ^ 2 * ((p.1 - q.1) ^ 2 + (p.2 - q.2) ^ 2) := by ring
  rw [h, Real.sqrt_mul (by positivity), Real.sqrt_sq hk]

theorem pairs_map {α β : Type*} (g : α → β) : ∀ l : List α,
    pairs (l.map g) = (pairs l).map (Prod.map g g)
  | [] => rfl
  | x :: xs => by
      simp only [List.map_cons, pairs, pairs_map g xs, List.map_append,
        List.map_map, Function.comp_def, Prod.map]

theorem cartProd_scale_map {α₁ β₁ α₂ β₂ : Type*} (g : α₁ → β₁) (g' : α₂ → β₂) :
    ∀ (l1 : List α₁) (l2 : List α₂),
      cartProd (l1.map g) (l2.map g') = (cartProd l1 l2).map (Prod.map g g')
  | [], l2 => rfl
  | x :: xs, l2 => by
      have ih := cartProd_scale_map g g' xs l2
      simp only [cartProd, List.map_map, Function.comp_def] at ih
      simp only [List.map_cons, cartProd, List.flatMap_cons, List.map_append,
        List.map_map, Function.comp_def, Prod.map]
      rw [ih]

theorem prod_map_scale {α : Type*} (k : ℝ) (f : α → ℝ) : ∀ l : List α,
    (l.map fun x => k * f x).prod = k ^ l.length * (l.map f).prod
  | [] => by simp
  | x :: xs => by
      simp only [List.map_cons, List.prod_cons, prod_map_scale k f xs,
        List.length_cons, pow_succ]
      ring

/-- Closed form of compute_gmr on bundles with at least two points. -/
theorem gmr_ge2 (b : List Point) (r : ℝ) (h2 : 2 ≤ b.length) :
    compute_gmr b r =
      (r ^ b.length * (((pairs b).map fun q => distance q.1 q.2).prod) ^ 2) ^
        ((1 : ℝ) / ((b.length : ℝ) ^ 2)) := by
  have h0 : b.length ≠ 0 := by omega
  have h1 : b.length ≠ 1 := by omega
  have hne : (((pairs b).map fun q => distance q.1 q.2).isEmpty) = false := by
    have hlen := pairs_length b
    have hpos : 0 < b.length.choose 2 := Nat.choose_pos h2
    rw [List.isEmpty_eq_false_iff_exists_mem]
    rcases List.exists_mem_of_length_pos (by rw [List.length_map, hlen]; omega :
      0 < ((pairs b).map fun q => distance q.1 q.2).length) with ⟨d, hd⟩
    exact ⟨d, hd⟩
  simp only [compute_gmr, h0, h1, if_false, hne, Bool.false_eq_true]
  norm_cast

/-- Extracting the k-th root of k-th powers of nonnegative reals. -/
theorem rpow_pow_inv (k : ℝ) (hk : 0 ≤ k) {m : ℕ} (hm : m ≠ 0) :
    (k ^ m) ^ ((1 : ℝ) / (m : ℝ)) = k := by
  rw [← Real.rpow_natCast k m, ← Real.rpow_mul hk]
  have hmR : (m : ℝ) ≠ 0 := Nat.cast_ne_zero.mpr hm
  rw [mul_one_div, div_self hmR, Real.rpow_one]

-- Theorems ---------------------------------------------------------------

/-- C5: for a bundle with exactly one point, compute_gmr returns r_self
exactly, for every point and every r_self. -/
theorem C5_single_conductor_identity (p : Point) (r_self : ℝ) :
    compute_gmr [p] r_self = r_self := by
  simp [compute_gmr]

/-- C1: for every bundle of n ≥ 2 points and every r_self, compute_gmr
returns the (n²)-th root of r_self^n times the square of the product of
the unique pairwise Euclidean distances (the product over the index pairs
i < j), and the code enumerates exactly C(n,2) pairwise distances. -/
theorem C1_gmr_pairwise_formula (bundle : List Point) (r_self : ℝ)
    (h : 2 ≤ bundle.length) :
    compute_gmr bundle r_self =
      (r_self ^ bundle.length *
          (∏ p ∈ Finset.univ.filter
              (fun p : Fin bundle.length × Fin bundle.length => p.1 < p.2),
            distance (bundle.get p.1) (bundle.get p.2)) ^ 2) ^
        ((1 : ℝ) / ((bundle.length : ℝ) ^ 2)) ∧
    (pairs bundle).length = bundle.length.choose 2 := by
  refine ⟨?_, pairs_length bundle⟩
  rw [gmr_ge2 bundle r_self h, pairs_map_prod distance bundle]

/-- A concrete 2-point bundle used to instantiate C1. -/
def wBundle : List Point := [(0, 0), (3, 4)]

/-- Witness for C1 at the concrete 2-point bundle. -/
theorem C1_witness :
    2 ≤ wBundle.length ∧
    (compute_gmr wBundle 2 =
        ((2 : ℝ) ^ wBundle.length *
            (∏ p ∈ Finset.univ.filter
                (fun p : Fin wBundle.length × Fin wBundle.length => p.1 < p.2),
              distance (wBundle.get p.1) (wBundle.get p.2)) ^ 2) ^
          ((1 : ℝ) / ((wBundle.length : ℝ) ^ 2)) ∧
      (pairs wBundle).length = wBundle.length.choose 2) :=
  ⟨by decide, C1_gmr_pairwise_formula wBundle 2 (by decide)⟩

/-- C7: compute_gmd is symmetric in its two bundle arguments. -/
theorem C7_gmd_symmetric (b1 b2 : List Point) :
    compute_gmd b1 b2 = compute_gmd b2 b1 := by
  unfold compute_gmd
  rw [Bool.or_comm]
  by_cases hc : (b2.isEmpty || b1.isEmpty) = true
  · rw [if_pos hc, if_pos hc]
  · rw [if_neg hc, if_neg hc]
    apply geometric_mean_congr
    · rw [List.length_map, List.length_map, cartProd_length, cartProd_length,
        Nat.mul_comm]
    · rw [cartProd_map_prod, cartProd_map_prod, prod_swap_lists]
      refine congrArg List.prod (List.map_congr_left fun b _ => ?_)
      exact congrArg List.prod (List.map_congr_left fun a _ => distance_comm a b)

/-- C3 counterexample: scaling every coordinate by k = 4 with r_self held
fixed does not scale compute_gmr by 4.  For the bundle [(0,0),(1,0)] with
r_self = 1 the original GMR is 1 but the scaled GMR is 2, not 4. -/
theorem C3_counterexample :
    compute_gmr (scalePts 4 [(0, 0), (1, 0)]) 1 ≠
      4 * compute_gmr [(0, 0), (1, 0)] 1 := by
  have h16 : (16 : ℝ) ^ ((1 : ℝ) / 4) = 2 := by
    rw [show (16 : ℝ) = 2 ^ (4 : ℕ) by norm_num, ← Real.rpow_natCast 2 4,
      ← Real.rpow_mul (by norm_num : (0 : ℝ) ≤ 2)]
    norm_num
  have e1 : compute_gmr [((0 : ℝ), (0 : ℝ)), (1, 0)] 1 = 1 := by
    norm_num [compute_gmr, pairs, distance]
  have e2 : compute_gmr (scalePts 4 [(0, 0), (1, 0)]) 1 = 2 := by
    norm_num [scalePts, compute_gmr, pairs, distance, h16]
  rw [e1, e2]
  norm_num

/-- C3 amended: scaling every coordinate of a nonempty bundle by k > 0
scales compute_gmr by exactly k provided the (nonnegative) r_self is
scaled by the same k, and scales compute_gmd of two nonempty bundles by
exactly k; with r_self held fixed the GMR of a multi-point bundle scales
by k^((n-1)/n) instead (see the counterexample). -/
theorem C3_amended_scale_covariance :
    (∀ (k r : ℝ) (b : List Point), 0 < k → 0 ≤ r → b ≠ [] →
      compute_gmr (scalePts k b) (k * r) = k * compute_gmr b r) ∧
    (∀ (k : ℝ) (b1 b2 : List Point), 0 < k → b1 ≠ [] → b2 ≠ [] →
      compute_gmd (scalePts k b1) (scalePts k b2) = k * compute_gmd b1 b2) := by
  constructor
  · intro k r b hk hr hb
    have hn0 : b.length ≠ 0 := fun hzero => hb (List.length_eq_zero.mp hzero)
    by_cases hn1 : b.length = 1
    · obtain ⟨p, rfl⟩ : ∃ p, b = [p] := List.length_eq_one.mp hn1
      simp [compute_gmr, scalePts]
    · have h2 : 2 ≤ b.length := by omega
      have hlen : (scalePts k b).length = b.length := List.length_map _ _
      have hd : ((pairs (scalePts k b)).map fun q => distance q.1 q.2) =
          (pairs b).map fun q => k * distance q.1 q.2 := by
        unfold scalePts
        rw [pairs_map, List.map_map]
        refine List.map_congr_left fun q _ => ?_
        rcases q with ⟨u, v⟩
        simpa [Prod.map] using distance_scale k hk.le u v
      rw [gmr_ge2 b r h2, gmr_ge2 (scalePts k b) (k * r) (by omega), hd, hlen,
        prod_map_scale]
      have hDnn : 0 ≤ ((pairs b).map fun q => distance q.1 q.2).prod := by
        apply List.prod_nonneg
        intro x hx
        rcases List.mem_map.mp hx with ⟨q, _, rfl⟩
        exact distance_nonneg q.1 q.2
      have hexp : b.length + 2 * (pairs b).length = b.length ^ 2 := by
        obtain ⟨m, hm⟩ : ∃ m, b.length = m + 2 := ⟨b.length - 2, by omega⟩
        rw [pairs_length, hm, Nat.choose_two_right,
          show m + 2 - 1 = m + 1 by omega]
        obtain ⟨t, ht⟩ : 2 ∣ (m + 2) * (m + 1) := by
          have hev : Even ((m + 1) * (m + 2)) := by
            simpa using Nat.even_mul_succ_self (m + 1)
          rcases hev with ⟨t, ht⟩
          exact ⟨t, by rw [Nat.mul_comm]; omega⟩
        rw [ht, Nat.mul_div_cancel_left t (by norm_num : (0 : ℕ) < 2)]
        nlinarith [ht]
      have hmain : (k * r) ^ b.length *
          (k ^ (pairs b).length * ((pairs b).map fun q => distance q.1 q.2).prod) ^ 2 =
          k ^ (b.length ^ 2) *
            (r ^ b.length * (((pairs b).map fun q => distance q.1 q.2).prod) ^ 2) := by
        rw [← hexp]; ring
      rw [hmain, Real.mul_rpow (pow_nonneg hk.le _)
        (mul_nonneg (pow_nonneg hr _) (sq_nonneg _))]
      congr 1
      rw [show ((b.length : ℝ) ^ 2) = ((b.length ^ 2 : ℕ) : ℝ) by push_cast; ring]
      exact rpow_pow_inv k hk.le (by positivity)
  · intro k b1 b2 hk h1 h2
    have hb1 : b1.isEmpty = false := by
      rcases b1 with _ | ⟨a, t⟩
      · exact absurd rfl h1
      · rfl
    have hb2 : b2.isEmpty = false := by
      rcases b2 with _ | ⟨a, t⟩
      · exact absurd rfl h2
      · rfl
    have he1 : (scalePts k b1).isEmpty = false := by
      unfold scalePts
      rcases b1 with _ | ⟨a, t⟩
      · exact absurd rfl h1
      · rfl
    have he2 : (scalePts k b2).isEmpty = false := by
      unfold scalePts
      rcases b2 with _ | ⟨a, t⟩
      · exact absurd rfl h2
      · rfl
    have hd : ((cartProd (scalePts k b1) (scalePts k b2)).map
          fun q => distance q.1 q.2) =
        (cartProd b1 b2).map fun q => k * distance q.1 q.2 := by
      unfold scalePts
      rw [cartProd_scale_map, List.map_map]
      refine List.map_congr_left fun q _ => ?_
      rcases q with ⟨u, v⟩
      simpa [Prod.map] using distance_scale k hk.le u v
    have hLpos : 0 < (cartProd b1 b2).length := by
      rw [cartProd_length]
      exact Nat.mul_pos (List.length_pos.mpr h1) (List.length_pos.mpr h2)
    have hie : (((cartProd b1 b2).map fun q => k * distance q.1 q.2).isEmpty)
        = false := by
      rw [List.isEmpty_eq_false_iff_exists_mem]
      rcases List.exists_mem_of_length_pos (by rw [List.length_map]; omega :
        0 < ((cartProd b1 b2).map fun q => k * distance q.1 q.2).length)
        with ⟨d, hdm⟩
      exact ⟨d, hdm⟩
    have hie2 : (((cartProd b1 b2).map fun q => distance q.1 q.2).isEmpty)
        = false := by
      rw [List.isEmpty_eq_false_iff_exists_mem]
      rcases List.exists_mem_of_length_pos (by rw [List.length_map]; omega :
        0 < ((cartProd b1 b2).map fun q => distance q.1 q.2).length)
        with ⟨d, hdm⟩
      exact ⟨d, hdm⟩
    have hDnn : 0 ≤ ((cartProd b1 b2).map fun q => distance q.1 q.2).prod := by
      apply List.prod_nonneg
      intro x hx
      rcases List.mem_map.mp hx with ⟨q, _, rfl⟩
      exact distance_nonneg q.1 q.2
    unfold compute_gmd
    rw [hb1, hb2, he1, he2]
    simp only [Bool.or_self, Bool.false_eq_true, if_false]
    rw [hd]
    unfold geometric_mean
    rw [hie, hie2]
    simp only [Bool.false_eq_true, if_false]
    rw [prod_map_scale, List.length_map, List.length_map,
      Real.mul_rpow (pow_nonneg hk.le _) hDnn]
    congr 1
    exact rpow_pow_inv k hk.le (by omega)

/-- Witness for the amended C3 at k = 2, bundle [(0,0),(1,0)], r_self = 1
and bundles [(0,0)], [(3,0)]. -/
theorem C3_witness :
    ((0 : ℝ) < 2 ∧ (0 : ℝ) ≤ 1 ∧ ([(0, 0), (1, 0)] : List Point) ≠ [] ∧
      compute_gmr (scalePts 2 [(0, 0), (1, 0)]) (2 * 1) =
        2 * compute_gmr [(0, 0), (1, 0)] 1) ∧
    (([(0, 0)] : List Point) ≠ [] ∧ ([(3, 0)] : List Point) ≠ [] ∧
      compute_gmd (scalePts 2 [(0, 0)]) (scalePts 2 [(3, 0)]) =
        2 * compute_gmd [(0, 0)] [(3, 0)]) :=
  ⟨⟨by norm_num, by norm_num, by simp,
      C3_amended_scale_covariance.1 2 1 [(0, 0), (1, 0)] (by norm_num)
        (by norm_num) (by simp)⟩,
    ⟨by simp, by simp,
      C3_amended_scale_covariance.2 2 [(0, 0)] [(3, 0)] (by norm_num)
        (by simp) (by simp)⟩⟩

-- constants.py and calculator.py ------------------------------------------

noncomputable section

/-- constants.UNIT_CONVERSIONS: unit factors to metres. -/
def UNIT_CONVERSIONS : List (String × ℝ) :=
  [("m", 1), ("ft", 0.3048), ("inch", 0.0254), ("cm", 0.01), ("mm", 0.001)]

/-- constants.MATERIALS: resistivity at 20 C in ohm metres. -/
def MATERIALS : List (String × ℝ) :=
  [("Copper", 1.68e-8), ("Aluminum", 2.82e-8), ("Steel", 1.43e-7),
    ("ACSR", 3.2e-8)]

/-- Python dict lookup d.get(k) on a string-keyed table. -/
def lookupStr (k : String) : List (String × ℝ) → Option ℝ
  | [] => none
  | (a, v) :: rest => if k = a then some v else lookupStr k rest

/-- An argument passed to a setter: float() either converts it or
raises ValueError. -/
inductive PyVal where
  | num (x : ℝ)
  | nonNum

/-- Python float() applied to a setter argument. -/
def pyFloat : PyVal → Except String ℝ
  | .num x => .ok x
  | .nonNum => .error "ValueError: could not convert to float"

/-- A numpy float64 as produced by the aggregate parameter step:
finite, +inf, -inf, or nan. -/
inductive NpVal where
  | fin (x : ℝ)
  | pinf
  | ninf
  | nan

namespace NpVal

/-- numpy multiplication. -/
def npMul : NpVal → NpVal → NpVal
  | fin x, fin y => fin (x * y)
  | fin x, pinf => if 0 < x then pinf else if x < 0 then ninf else nan
  | fin x, ninf => if 0 < x then ninf else if x < 0 then pinf else nan
  | pinf, fin y => if 0 < y then pinf else if y < 0 then ninf else nan
  | ninf, fin y => if 0 < y then ninf else if y < 0 then pinf else nan
  | pinf, pinf => pinf
  | pinf, ninf => ninf
  | ninf, pinf => ninf
  | ninf, ninf => pinf
  | nan, _ => nan
  | _, nan => nan

/-- numpy division: a finite value divided by (positive) zero gives a
signed infinity, 0/0 gives nan; no exception is raised. -/
def npDiv : NpVal → NpVal → NpVal
  | fin x, fin y =>
      if y = 0 then (if x = 0 then nan else if 0 < x then pinf else ninf)
      else fin (x / y)
  | fin _, pinf => fin 0
  | fin _, ninf => fin 0
  | pinf, fin y => if 0 ≤ y then pinf else ninf
  | ninf, fin y => if 0 ≤ y then ninf else pinf
  | pinf, pinf => nan
  | pinf, ninf => nan
  | ninf, pinf => nan
  | ninf, ninf => nan
  | nan, _ => nan
  | _, nan => nan

/-- numpy log: -inf at zero, nan on negative arguments. -/
def npLog : NpVal → NpVal
  | fin x => if 0 < x then fin (Real.log x) else if x = 0 then ninf else nan
  | pinf => pinf
  | ninf => nan
  | nan => nan

/-- The Python comparison v > 0 on a numpy value (nan > 0 is false). -/
def npPos : NpVal → Prop
  | fin x => 0 < x
  | pinf => True
  | ninf => False
  | nan => False

end NpVal

/-- The params sub-dict assembled by compute_results. -/
structure LineParams where
  R_per_km_ohm : ℝ
  R_total_ohm : ℝ
  L_per_km_mH : NpVal
  L_total_mH : NpVal
  C_per_km_nF : NpVal
  C_total_uF : NpVal
  XL_total_ohm : NpVal
  XC_total_ohm : NpVal
  GMD_equivalent_m : Option ℝ
  GMR_equivalent_m : Option ℝ

/-- The results dict before the history key is attached (this is also
what a history snapshot stores).  gmr entries are (label, value, count);
gmd entries are (label a, label b, value). -/
structure CalcResultCore where
  error : Option String
  gmr : List (String × ℝ × ℕ)
  gmd : List (String × String × ℝ)
  params : Option LineParams

/-- A history snapshot: the configuration copy plus the results copy
(the datetime timestamp is I/O and is not modelled). -/
structure HistoryEntry where
  unit : String
  material : String
  length_km : ℝ
  radius_m : ℝ
  frequency_hz : ℝ
  bundleA : List Point
  bundleB : List Point
  bundleC : List Point
  r_selfA : ℝ
  r_selfB : ℝ
  r_selfC : ℝ
  results : CalcResultCore

/-- The full value returned by compute_results: the result dict, whose
history key is only present on the normal (non-early) return path. -/
structure CalcResult where
  core : CalcResultCore
  history : Option (List HistoryEntry)

/-- The state of a calculator.pytline_calc session object. -/
structure LineState where
  bundleA : List Point
  bundleB : List Point
  bundleC : List Point
  rselfA : ℝ
  rselfB : ℝ
  rselfC : ℝ
  unit : String
  material : String
  length : ℝ
  conductor_radius : ℝ
  freq : ℝ
  calc_history : List HistoryEntry

/-- pytline_calc.__init__ defaults. -/
def initState : LineState where
  bundleA := []
  bundleB := []
  bundleC := []
  rselfA := 0.01 * 0.7788
  rselfB := 0.01 * 0.7788
  rselfC := 0.01 * 0.7788
  unit := "m"
  material := "Copper"
  length := 100
  conductor_radius := 0.01
  freq := 60
  calc_history := []

/-- The dict keys of self.bundles, in insertion order. -/
def phases : List String := ["A", "B", "C"]

/-- `bundle in self.bundles`. -/
def validPhase (p : String) : Prop := p = "A" ∨ p = "B" ∨ p = "C"

def getBundle (s : LineState) (p : String) : List Point :=
  if p = "A" then s.bundleA else if p = "B" then s.bundleB else s.bundleC

def setBundle (s : LineState) (p : String) (b : List Point) : LineState :=
  if p = "A" then { s with bundleA := b }
  else if p = "B" then { s with bundleB := b }
  else { s with bundleC := b }

def getRself (s : LineState) (p : String) : ℝ :=
  if p = "A" then s.rselfA else if p = "B" then s.rselfB else s.rselfC

def setRself (s : LineState) (p : String) (v : ℝ) : LineState :=
  if p = "A" then { s with rselfA := v }
  else if p = "B" then { s with rselfB := v }
  else { s with rselfC := v }

/-- The method call raised a Python exception. -/
def raised (r : Except String String) : Prop :=
  match r with
  | .error _ => True
  | .ok _ => False

/-- calculator.set_unit: validates the unit key, then stores it. -/
def set_unit (s : LineState) (u : String) :
    LineState × Except String String :=
  if (lookupStr u UNIT_CONVERSIONS).isSome then
    ({ s with unit := u }, .ok "Units set")
  else (s, .error "Unknown unit")

/-- calculator.set_self_gmr: validates the bundle label, converts the
value with float(), looks up the current unit factor, and stores the
metre value; no sign or positivity check is performed. -/
def set_self_gmr (s : LineState) (bundle : String) (v : PyVal) :
    LineState × Except String String :=
  if ¬ validPhase bundle then (s, .error "Invalid bundle")
  else
    match pyFloat v with
    | .error e => (s, .error e)
    | .ok x =>
      match lookupStr s.unit UNIT_CONVERSIONS with
      | none => (s, .error "KeyError")
      | some f => (setRself s bundle (x * f), .ok "Set self GMR")

/-- calculator.set_line_params: validates the material, then assigns
material, length, conductor_radius and freq one statement at a time,
each float() conversion running after the previous assignment (so a
ValueError from a later float() leaves the earlier fields mutated). -/
def set_line_params (s : LineState) (material : String)
    (length_km conductor_radius_m freq_hz : PyVal) :
    LineState × Except String String :=
  if (lookupStr material MATERIALS).isSome then
    let s1 := { s with material := material }
    match pyFloat length_km with
    | .error e => (s1, .error e)
    | .ok lv =>
      let s2 := { s1 with length := lv }
      match pyFloat conductor_radius_m with
      | .error e => (s2, .error e)
      | .ok rv =>
        let s3 := { s2 with conductor_radius := rv }
        match pyFloat freq_hz with
        | .error e => (s3, .error e)
        | .ok fv => ({ s3 with freq := fv }, .ok "Line parameters updated")
  else (s, .error "Unknown material")

/-- calculator.add_point: validates the bundle label, looks up the unit
factor, converts x then y with float(), then appends the metre point. -/
def add_point (s : LineState) (x y : PyVal) (bundle : String) :
    LineState × Except String String :=
  if ¬ validPhase bundle then (s, .error "Invalid bundle")
  else
    match lookupStr s.unit UNIT_CONVERSIONS with
    | none => (s, .error "KeyError")
    | some unit_factor =>
      match pyFloat x with
      | .error e => (s, .error e)
      | .ok xv =>
        match pyFloat y with
        | .error e => (s, .error e)
        | .ok yv =>
          (setBundle s bundle
            (getBundle s bundle ++ [(xv * unit_factor, yv * unit_factor)]),
            .ok "Added point")

end

theorem getBundle_setBundle (s : LineState) (p : String) (b : List Point) :
    getBundle (setBundle s p b) p = b := by
  unfold getBundle setBundle
  by_cases hA : p = "A"
  · simp [hA]
  · by_cases hB : p = "B" <;> simp [hA, hB]

theorem getRself_setRself (s : LineState) (p : String) (v : ℝ) :
    getRself (setRself s p v) p = v := by
  unfold getRself setRself
  by_cases hA : p = "A"
  · simp [hA]
  · by_cases hB : p = "B" <;> simp [hA, hB]

/-- C4: while the session unit is a table unit u with factor f, add_point
appends the point (x*f, y*f) in metres to the requested bundle, and a
subsequent set_unit call (valid or not) leaves every stored point of
every bundle unchanged. -/
theorem C4_unit_round_trip :
    (∀ (s : LineState) (x y : ℝ) (ph u : String) (f : ℝ),
      s.unit = u → lookupStr u UNIT_CONVERSIONS = some f → validPhase ph →
        ¬ raised (add_point s (.num x) (.num y) ph).2 ∧
        getBundle (add_point s (.num x) (.num y) ph).1 ph =
          getBundle s ph ++ [(x * f, y * f)]) ∧
    (∀ (s : LineState) (u : String),
      (set_unit s u).1.bundleA = s.bundleA ∧
      (set_unit s u).1.bundleB = s.bundleB ∧
      (set_unit s u).1.bundleC = s.bundleC) := by
  constructor
  · intro s x y ph u f hu hf hph
    subst hu
    simp only [add_point, hph, not_true_eq_false, if_false, hf, pyFloat]
    exact ⟨by simp [raised], getBundle_setBundle s ph _⟩
  · intro s u
    by_cases h : (lookupStr u UNIT_CONVERSIONS).isSome <;>
      simp [set_unit, h]

/-- Witness for C4: adding (3, 4) in metres to bundle A of the fresh
session stores (3*1, 4*1), and switching to feet touches no bundle. -/
theorem C4_witness :
    (¬ raised (add_point initState (.num 3) (.num 4) "A").2 ∧
      getBundle (add_point initState (.num 3) (.num 4) "A").1 "A" =
        getBundle initState "A" ++ [((3 : ℝ) * 1, (4 : ℝ) * 1)]) ∧
    ((set_unit initState "ft").1.bundleA = initState.bundleA ∧
      (set_unit initState "ft").1.bundleB = initState.bundleB ∧
      (set_unit initState "ft").1.bundleC = initState.bundleC) :=
  ⟨C4_unit_round_trip.1 initState 3 4 "A" "m" 1 rfl
      (by simp [lookupStr, UNIT_CONVERSIONS]) (by simp [validPhase]),
    C4_unit_round_trip.2 initState "ft"⟩

/-- C8 counterexample: set_line_params with a valid material but a
non-numeric length raises, yet the session state afterwards differs from
the state before the call: self.material was already reassigned before
float(length_km) raised. -/
theorem C8_counterexample :
    raised (set_line_params initState "Aluminum" PyVal.nonNum (PyVal.num 1)
        (PyVal.num 60)).2 ∧
    (set_line_params initState "Aluminum" PyVal.nonNum (PyVal.num 1)
        (PyVal.num 60)).1.material = "Aluminum" ∧
    initState.material = "Copper" ∧ ("Aluminum" : String) ≠ "Copper" := by
  refine ⟨?_, ?_, rfl, by simp⟩ <;>
    simp [set_line_params, lookupStr, MATERIALS, pyFloat, raised]

/-- C8 amended: each setter validates the enumerated invalid inputs
(unknown unit, unknown material, unknown phase label, non-numeric
coordinate or self-GMR value) before any state mutation, and a raise on
one of those inputs leaves the session state exactly as it was; however
set_line_params converts its numeric arguments only after assigning
earlier fields, so a raise from a non-numeric length, radius or frequency
can leave a partial state change (see the counterexample). -/
theorem C8_amended_setters_validate_first :
    (∀ (s : LineState) (u : String), lookupStr u UNIT_CONVERSIONS = none →
      raised (set_unit s u).2 ∧ (set_unit s u).1 = s) ∧
    (∀ (s : LineState) (m : String) (l r f : PyVal),
      lookupStr m MATERIALS = none →
        raised (set_line_params s m l r f).2 ∧
        (set_line_params s m l r f).1 = s) ∧
    (∀ (s : LineState) (x y : PyVal) (ph : String), ¬ validPhase ph →
      raised (add_point s x y ph).2 ∧ (add_point s x y ph).1 = s) ∧
    (∀ (s : LineState) (y : PyVal) (ph : String),
      raised (add_point s PyVal.nonNum y ph).2 ∧
      (add_point s PyVal.nonNum y ph).1 = s) ∧
    (∀ (s : LineState) (x : PyVal) (ph : String),
      raised (add_point s x PyVal.nonNum ph).2 ∧
      (add_point s x PyVal.nonNum ph).1 = s) ∧
    (∀ (s : LineState) (ph : String) (v : PyVal), ¬ validPhase ph →
      raised (set_self_gmr s ph v).2 ∧ (set_self_gmr s ph v).1 = s) ∧
    (∀ (s : LineState) (ph : String),
      raised (set_self_gmr s ph PyVal.nonNum).2 ∧
      (set_self_gmr s ph PyVal.nonNum).1 = s) := by
  refine ⟨?_, ?_, ?_, ?_, ?_, ?_, ?_⟩
  · intro s u hu
    simp [set_unit, hu, raised]
  · intro s m l r f hm
    simp [set_line_params, hm, raised]
  · intro s x y ph hph
    simp [add_point, hph, raised]
  · intro s y ph
    by_cases hph : validPhase ph
    · rcases hl : lookupStr s.unit UNIT_CONVERSIONS with _ | uf <;>
        simp [add_point, hph, hl, pyFloat, raised]
    · simp [add_point, hph, raised]
  · intro s x ph
    by_cases hph : validPhase ph
    · rcases hl : lookupStr s.unit UNIT_CONVERSIONS with _ | uf
      · simp [add_point, hph, hl, raised]
      · rcases x with x | _ <;>
          simp [add_point, hph, hl, pyFloat, raised]
    · simp [add_point, hph, raised]
  · intro s ph v hph
    simp [set_self_gmr, hph, raised]
  · intro s ph
    by_cases hph : validPhase ph <;>
      simp [set_self_gmr, hph, pyFloat, raised]

/-- Witness for the amended C8 at concrete invalid inputs. -/
theorem C8_witness :
    (raised (set_unit initState "yard").2 ∧
      (set_unit initState "yard").1 = initState) ∧
    (raised (set_self_gmr initState "D" (PyVal.num 1)).2 ∧
      (set_self_gmr initState "D" (PyVal.num 1)).1 = initState) :=
  ⟨C8_amended_setters_validate_first.1 initState "yard"
      (by simp [lookupStr, UNIT_CONVERSIONS]),
    C8_amended_setters_validate_first.2.2.2.2.2.1 initState "D" (PyVal.num 1)
      (by simp [validPhase])⟩

/-- C10: with a valid stored unit of factor f, set_self_gmr raises
exactly when the phase label is invalid, and for a valid phase it stores
v * f as that phase's self-GMR for every real v, with no positivity
check. -/
theorem C10_set_self_gmr_stores_unchecked :
    ∀ (s : LineState) (ph : String) (v f : ℝ),
      lookupStr s.unit UNIT_CONVERSIONS = some f →
      ((raised (set_self_gmr s ph (.num v)).2 ↔ ¬ validPhase ph) ∧
        (validPhase ph →
          getRself (set_self_gmr s ph (.num v)).1 ph = v * f)) := by
  intro s ph v f hf
  by_cases hph : validPhase ph
  · constructor
    · simp [set_self_gmr, hph, pyFloat, hf, raised]
    · intro _
      simp only [set_self_gmr, hph, not_true_eq_false, if_false, pyFloat, hf]
      exact getRself_setRself s ph (v * f)
  · constructor
    · simp [set_self_gmr, hph, raised]
    · intro h
      exact absurd h hph

/-- Witness for C10: storing the negative value -2 metres as phase B's
self-GMR succeeds on the fresh session. -/
theorem C10_witness :
    lookupStr initState.unit UNIT_CONVERSIONS = some 1 ∧
    ((raised (set_self_gmr initState "B" (.num (-2))).2 ↔
        ¬ validPhase "B") ∧
      (validPhase "B" →
        getRself (set_self_gmr initState "B" (.num (-2))).1 "B" = -2 * 1)) :=
  ⟨by simp [initState, lookupStr, UNIT_CONVERSIONS],
    C10_set_self_gmr_stores_unchecked initState "B" (-2) 1
      (by simp [initState, lookupStr, UNIT_CONVERSIONS])⟩

-- calculator.compute_results ----------------------------------------------

noncomputable section

/-- Labels of phases whose bundle has points, in dict order (the phases
iterated by the gmr loop of compute_results). -/
def nonemptyPhases (s : LineState) : List String :=
  phases.filter fun l => !(getBundle s l).isEmpty

/-- The gmr entries (label, value, count) of compute_results. -/
def gmrList (s : LineState) : List (String × ℝ × ℕ) :=
  (nonemptyPhases s).map fun l =>
    (l, compute_gmr (getBundle s l) (getRself s l), (getBundle s l).length)

/-- The gmd entries (a, b, value) of compute_results, over the pairs of
dict keys produced by itertools.combinations. -/
def gmdList (s : LineState) : List (String × String × ℝ) :=
  ((pairs phases).filter fun q =>
      !(getBundle s q.1).isEmpty && !(getBundle s q.2).isEmpty).map fun q =>
    (q.1, q.2, compute_gmd (getBundle s q.1) (getBundle s q.2))

/-- `max(len(p) for p in self.bundles.values() if p)`. -/
def maxConductors (s : LineState) : ℕ :=
  (((phases.map fun l => getBundle s l).filter fun b => !b.isEmpty).map
    List.length).foldr max 0

/-- `next(p for p in self.bundles.values() if p)`. -/
def firstNonempty (s : LineState) : List Point :=
  ((phases.map fun l => getBundle s l).filter fun b => !b.isEmpty).headD []

/-- np.mean of a list of values. -/
def listMean (l : List ℝ) : ℝ := l.sum / (l.length : ℝ)

/-- The early return of compute_results when no bundle has points: a
dict holding only the error message (no params, no history key). -/
def noDataResult : CalcResult where
  core := { error := some "No conductors added. Cannot calculate parameters.",
            gmr := [], gmd := [], params := none }
  history := none

/-- The L/C block outputs of compute_results. -/
structure AggLC where
  L_per_km : NpVal
  L_total : NpVal
  C_per_km : NpVal
  C_total : NpVal
  gmdEq : Option ℝ
  gmrEq : Option ℝ

/-- The single-phase branch: inductance and capacitance set to zero and
no equivalent GMD/GMR locals defined. -/
def noAgg : AggLC :=
  ⟨.fin 0, .fin 0, .fin 0, .fin 0, none, none⟩

/-- The aggregate L/C block for at least two phases with data.  The
numpy log and divisions can produce inf or nan (never an exception);
this is tracked in NpVal. -/
def aggregateLC (s : LineState) (gmrL : List (String × ℝ × ℕ))
    (gmdL : List (String × String × ℝ)) : AggLC :=
  let avg_gmd := listMean (gmdL.map fun e => e.2.2)
  let avg_gmr := geometric_mean (gmrL.map fun e => e.2.1)
  let L_per_km := NpVal.npMul (NpVal.npMul (.fin 2e-7)
    (NpVal.npLog (NpVal.npDiv (.fin avg_gmd) (.fin avg_gmr)))) (.fin 1000)
  let L_total := NpVal.npMul L_per_km (.fin s.length)
  let fb := firstNonempty s
  let n_cb := fb.length
  let r_bundle_equiv :=
    if n_cb = 1 then s.conductor_radius
    else ((n_cb : ℝ) * s.conductor_radius *
        geometric_mean ((pairs fb).map fun q => distance q.1 q.2) ^
          (n_cb - 1)) ^ ((1 : ℝ) / (n_cb : ℝ))
  let C_per_km := NpVal.npDiv (.fin (2 * Real.pi * 8.854e-12 * 1000))
    (NpVal.npLog (NpVal.npDiv (.fin avg_gmd) (.fin r_bundle_equiv)))
  let C_total := NpVal.npMul C_per_km (.fin s.length)
  ⟨L_per_km, L_total, C_per_km, C_total, some avg_gmd, some avg_gmr⟩

/-- calculator.compute_results.  The Exception monad carries the Python
exceptions that can escape (TypeError on an unknown material whose
looked-up resistivity is None, ZeroDivisionError on a zero Python-float
denominator in the resistance step); the numpy steps never raise. -/
def compute_results (s : LineState) : Except String (LineState × CalcResult) :=
  let gmrL := gmrList s
  let gmdL := gmdList s
  if gmrL.isEmpty then .ok (s, noDataResult)
  else
    match lookupStr s.material MATERIALS with
    | none => .error "TypeError: unsupported operand type for NoneType"
    | some rho =>
      let n := maxConductors s
      let area := Real.pi * s.conductor_radius ^ 2
      if area * (n : ℝ) = 0 then .error "ZeroDivisionError"
      else
        let R_per_km := rho * 1000 / (area * (n : ℝ))
        let R_total := R_per_km * s.length
        let agg := if 2 ≤ gmrL.length then aggregateLC s gmrL gmdL else noAgg
        let omega := 2 * Real.pi * s.freq
        let XL := if NpVal.npPos agg.L_total
          then NpVal.npMul (.fin omega) agg.L_total else .fin 0
        let XC := if NpVal.npPos agg.C_total
          then NpVal.npDiv (.fin 1) (NpVal.npMul (.fin omega) agg.C_total)
          else .fin 0
        let params : LineParams :=
          { R_per_km_ohm := R_per_km
            R_total_ohm := R_total
            L_per_km_mH := NpVal.npMul agg.L_per_km (.fin 1000)
            L_total_mH := NpVal.npMul agg.L_total (.fin 1000)
            C_per_km_nF := NpVal.npMul agg.C_per_km (.fin 1e9)
            C_total_uF := NpVal.npMul agg.C_total (.fin 1e6)
            XL_total_ohm := XL
            XC_total_ohm := XC
            GMD_equivalent_m := agg.gmdEq
            GMR_equivalent_m := agg.gmrEq }
        let core : CalcResultCore :=
          { error := none, gmr := gmrL, gmd := gmdL, params := some params }
        let hist := s.calc_history ++
          [{ unit := s.unit, material := s.material, length_km := s.length,
             radius_m := s.conductor_radius, frequency_hz := s.freq,
             bundleA := s.bundleA, bundleB := s.bundleB, bundleC := s.bundleC,
             r_selfA := s.rselfA, r_selfB := s.rselfB, r_selfC := s.rselfC,
             results := core }]
        .ok ({ s with calc_history := hist },
          { core := core, history := some hist })

/-- The error field of the result dict, when the call did not raise. -/
def errorOf (r : Except String (LineState × CalcResult)) :
    Option (Option String) :=
  match r with
  | .ok (_, res) => some res.core.error
  | .error _ => none

/-- The gmr entries of the result dict, when the call did not raise. -/
def gmrOf (r : Except String (LineState × CalcResult)) :
    Option (List (String × ℝ × ℕ)) :=
  match r with
  | .ok (_, res) => some res.core.gmr
  | .error _ => none

/-- The gmd entries of the result dict, when the call did not raise. -/
def gmdOf (r : Except String (LineState × CalcResult)) :
    Option (List (String × String × ℝ)) :=
  match r with
  | .ok (_, res) => some res.core.gmd
  | .error _ => none

/-- The params sub-dict of the result, when the call did not raise. -/
def paramsOf (r : Except String (LineState × CalcResult)) :
    Option LineParams :=
  match r with
  | .ok (_, res) => res.core.params
  | .error _ => none

end

theorem length_pos_of_isEmpty_false {α : Type*} {l : List α}
    (h : l.isEmpty = false) : 1 ≤ l.length := by
  rcases l with _ | ⟨a, t⟩
  · simp at h
  · simp

theorem foldr_max_le {x : ℕ} : ∀ l : List ℕ, x ∈ l → x ≤ l.foldr max 0
  | [], hx => absurd hx (List.not_mem_nil x)
  | y :: ys, hx => by
      rcases List.mem_cons.mp hx with rfl | hx'
      · simp only [List.foldr_cons]
        exact le_max_left _ _
      · simp only [List.foldr_cons]
        exact le_trans (foldr_max_le ys hx') (le_max_right _ _)

theorem maxConductors_pos (s : LineState) (h : nonemptyPhases s ≠ []) :
    1 ≤ maxConductors s := by
  obtain ⟨l, hl⟩ : ∃ l, l ∈ nonemptyPhases s := by
    rcases hnp : nonemptyPhases s with _ | ⟨a, t⟩
    · exact absurd hnp h
    · exact ⟨a, hnp ▸ List.mem_cons_self a t⟩
  have hmem : l ∈ phases ∧ (!(getBundle s l).isEmpty) = true :=
    List.mem_filter.mp hl
  have hlen : 1 ≤ (getBundle s l).length :=
    length_pos_of_isEmpty_false (by simpa using hmem.2)
  have hmem2 : (getBundle s l).length ∈
      ((phases.map fun l => getBundle s l).filter fun b =>
        !b.isEmpty).map List.length := by
    apply List.mem_map_of_mem
    apply List.mem_filter.mpr
    refine ⟨?_, hmem.2⟩
    exact List.mem_map_of_mem _ hmem.1
  exact le_trans hlen (foldr_max_le _ hmem2)

/-- C9: compute_results on a session whose three bundles are all empty
returns the explicit no-data result without raising, and hands back the
session state completely unchanged (no history entry is appended). -/
theorem C9_all_empty_no_data (s : LineState) (hA : s.bundleA = [])
    (hB : s.bundleB = []) (hC : s.bundleC = []) :
    compute_results s = .ok (s, noDataResult) := by
  have h : gmrList s = [] := by
    simp [gmrList, nonemptyPhases, phases, getBundle, hA, hB, hC]
  simp [compute_results, h]

/-- Witness for C9 at the fresh session state. -/
theorem C9_witness :
    initState.bundleA = [] ∧ initState.bundleB = [] ∧
    initState.bundleC = [] ∧
    compute_results initState = .ok (initState, noDataResult) :=
  ⟨rfl, rfl, rfl, C9_all_empty_no_data initState rfl rfl rfl⟩

/-- C6: when exactly one phase has points (and the resistance step does
not raise: known material, nonzero radius), the returned per-km and
total inductance and capacitance are zero and both reactances XL and XC
are reported as zero. -/
theorem C6_single_phase_zero_LC (s : LineState)
    (h1 : (nonemptyPhases s).length = 1)
    (hmat : (lookupStr s.material MATERIALS).isSome = true)
    (hrad : s.conductor_radius ≠ 0) :
    (paramsOf (compute_results s)).map (fun p =>
        (p.L_per_km_mH, p.L_total_mH, p.C_per_km_nF, p.C_total_uF,
          p.XL_total_ohm, p.XC_total_ohm)) =
      some (.fin 0, .fin 0, .fin 0, .fin 0, .fin 0, .fin 0) := by
  obtain ⟨rho, hrho⟩ := Option.isSome_iff_exists.mp hmat
  have hnonnil : nonemptyPhases s ≠ [] := by
    intro hh
    rw [hh] at h1
    simp at h1
  have hne : (gmrList s).isEmpty = false := by
    unfold gmrList
    rcases hnp : nonemptyPhases s with _ | ⟨a, t⟩
    · exact absurd hnp hnonnil
    · rfl
  have hlen : ¬ (2 ≤ (gmrList s).length) := by
    unfold gmrList
    rw [List.length_map, h1]
    omega
  have hmax := maxConductors_pos s hnonnil
  have hden : ¬ (Real.pi * s.conductor_radius ^ 2 *
      ((maxConductors s : ℕ) : ℝ) = 0) := by
    have hcast : ((maxConductors s : ℕ) : ℝ) ≠ 0 :=
      Nat.cast_ne_zero.mpr (by omega)
    exact mul_ne_zero (mul_ne_zero Real.pi_ne_zero (pow_ne_zero 2 hrad)) hcast
  simp [compute_results, hne, hrho, hden, hlen, noAgg, paramsOf,
    NpVal.npPos, NpVal.npMul]

/-- A session with a single conductor at the origin in phase A. -/
noncomputable def oneState : LineState := { initState with bundleA := [(0, 0)] }

/-- Witness for C6 at the single-conductor session. -/
theorem C6_witness :
    (nonemptyPhases oneState).length = 1 ∧
    (lookupStr oneState.material MATERIALS).isSome = true ∧
    oneState.conductor_radius ≠ 0 ∧
    (paramsOf (compute_results oneState)).map (fun p =>
        (p.L_per_km_mH, p.L_total_mH, p.C_per_km_nF, p.C_total_uF,
          p.XL_total_ohm, p.XC_total_ohm)) =
      some (.fin 0, .fin 0, .fin 0, .fin 0, .fin 0, .fin 0) := by
  have h1 : (nonemptyPhases oneState).length = 1 := by
    simp [nonemptyPhases, phases, getBundle, oneState, initState]
  have h2 : (lookupStr oneState.material MATERIALS).isSome = true := by
    simp [oneState, initState, lookupStr, MATERIALS]
  have h3 : oneState.conductor_radius ≠ 0 := by
    norm_num [oneState, initState]
  exact ⟨h1, h2, h3, C6_single_phase_zero_LC oneState h1 h2 h3⟩

/-- C2 amended: when the aggregate step runs (some phase has data, the
material is known and the radius is nonzero so the Python-float
resistance division does not raise), compute_results returns normally
with NO domain-error report: the error field of the result is none, the
per-phase GMR and per-pair GMD entries are present, and the params are
returned exactly as the numpy arithmetic produced them — a log of a
non-positive argument or a numpy division by zero yields an Inf/NaN
value that is propagated to the caller (see the counterexample, where
C_total is +Inf). -/
theorem C2_amended_no_domain_error (s : LineState)
    (hnonnil : nonemptyPhases s ≠ [])
    (hmat : (lookupStr s.material MATERIALS).isSome = true)
    (hrad : s.conductor_radius ≠ 0) :
    errorOf (compute_results s) = some none ∧
    gmrOf (compute_results s) = some (gmrList s) ∧
    gmdOf (compute_results s) = some (gmdList s) ∧
    (paramsOf (compute_results s)).isSome = true := by
  obtain ⟨rho, hrho⟩ := Option.isSome_iff_exists.mp hmat
  have hne : (gmrList s).isEmpty = false := by
    unfold gmrList
    rcases hnp : nonemptyPhases s with _ | ⟨a, t⟩
    · exact absurd hnp hnonnil
    · rfl
  have hmax := maxConductors_pos s hnonnil
  have hden : ¬ (Real.pi * s.conductor_radius ^ 2 *
      ((maxConductors s : ℕ) : ℝ) = 0) := by
    have hcast : ((maxConductors s : ℕ) : ℝ) ≠ 0 :=
      Nat.cast_ne_zero.mpr (by omega)
    exact mul_ne_zero (mul_ne_zero Real.pi_ne_zero (pow_ne_zero 2 hrad)) hcast
  simp [compute_results, hne, hrho, hden, errorOf, gmrOf, gmdOf, paramsOf]

/-- A session with one conductor in phase A at (0,3) and one in phase B
at (1,3), self-GMR 2 m for both, conductor radius 1 m: then
avg_GMD = 1 = r_bundle_equiv, so the capacitance step divides by
log(1) = 0. -/
noncomputable def exS : LineState :=
  { initState with
    bundleA := [(0, 3)]
    bundleB := [(1, 3)]
    rselfA := 2
    rselfB := 2
    conductor_radius := 1 }

/-- C2 counterexample: at exS the aggregate step divides by a zero
logarithm; compute_results neither catches nor reports this: the
returned result has error = none while C_total is the propagated +Inf. -/
theorem C2_counterexample :
    errorOf (compute_results exS) = some none ∧
    (paramsOf (compute_results exS)).map (fun p => p.C_total_uF) =
      some NpVal.pinf := by
  have hA : getBundle exS "A" = [((0 : ℝ), (3 : ℝ))] := by
    simp [getBundle, exS]
  have hB : getBundle exS "B" = [((1 : ℝ), (3 : ℝ))] := by
    simp [getBundle, exS]
  have hC : getBundle exS "C" = [] := by
    simp [getBundle, exS, initState]
  have hnp : nonemptyPhases exS = ["A", "B"] := by
    simp [nonemptyPhases, phases, hA, hB, hC]
  have hrA : getRself exS "A" = 2 := by simp [getRself, exS]
  have hrB : getRself exS "B" = 2 := by simp [getRself, exS]
  have hradx : exS.conductor_radius = 1 := by simp [exS]
  have hlenx : exS.length = 100 := by simp [exS, initState]
  have hgmrA : compute_gmr [((0 : ℝ), (3 : ℝ))] 2 = 2 := by
    simp [compute_gmr]
  have hgmrB : compute_gmr [((1 : ℝ), (3 : ℝ))] 2 = 2 := by
    simp [compute_gmr]
  have hgmrL : gmrList exS = [("A", 2, 1), ("B", 2, 1)] := by
    simp [gmrList, hnp, hA, hB, hrA, hrB, hgmrA, hgmrB]
  have hdist : distance ((0 : ℝ), (3 : ℝ)) ((1 : ℝ), (3 : ℝ)) = 1 := by
    norm_num [distance]
  have hgmd : compute_gmd [((0 : ℝ), (3 : ℝ))] [((1 : ℝ), (3 : ℝ))] = 1 := by
    simp [compute_gmd, cartProd, geometric_mean, hdist]
  have hgmdL : gmdList exS = [("A", "B", 1)] := by
    simp [gmdList, pairs, phases, hA, hB, hC, hgmd]
  have hfb : firstNonempty exS = [((0 : ℝ), (3 : ℝ))] := by
    simp [firstNonempty, phases, hA, hB, hC]
  have haggC : (aggregateLC exS [("A", (2 : ℝ), (1 : ℕ)), ("B", 2, 1)]
      [("A", "B", (1 : ℝ))]).C_total = NpVal.pinf := by
    norm_num [aggregateLC, listMean, geometric_mean, hfb, hradx, hlenx,
      NpVal.npDiv, NpVal.npLog, NpVal.npMul, Real.log_one, Real.one_rpow,
      Real.pi_ne_zero, Real.pi_pos]
  have hmat : lookupStr exS.material MATERIALS = some (1.68e-8 : ℝ) := by
    simp [exS, initState, lookupStr, MATERIALS]
  have hmaxc : maxConductors exS = 1 := by
    simp [maxConductors, phases, hA, hB, hC]
  have hden : ¬ (Real.pi * exS.conductor_radius ^ 2 *
      ((maxConductors exS : ℕ) : ℝ) = 0) := by
    rw [hmaxc, hradx]
    simpa using Real.pi_ne_zero
  constructor
  · simp [compute_results, hgmrL, hgmdL, hmat, hden, errorOf]
  · norm_num [compute_results, hgmrL, hgmdL, hmat, hden, haggC,
      paramsOf, NpVal.npMul]

/-- Witness for the amended C2 at the two-phase session exS. -/
theorem C2_witness :
    nonemptyPhases exS ≠ [] ∧
    (lookupStr exS.material MATERIALS).isSome = true ∧
    exS.conductor_radius ≠ 0 ∧
    (errorOf (compute_results exS) = some none ∧
      gmrOf (compute_results exS) = some (gmrList exS) ∧
      gmdOf (compute_results exS) = some (gmdList exS) ∧
      (paramsOf (compute_results exS)).isSome = true) := by
  have h1 : nonemptyPhases exS ≠ [] := by
    have hnp : nonemptyPhases exS = ["A", "B"] := by
      simp [nonemptyPhases, phases, getBundle, exS, initState]
    rw [hnp]
    simp
  have h2 : (lookupStr exS.material MATERIALS).isSome = true := by
    simp [exS, initState, lookupStr, MATERIALS]
  have h3 : exS.conductor_radius ≠ 0 := by norm_num [exS]
  exact ⟨h1, h2, h3, C2_amended_no_domain_error exS h1 h2 h3⟩
